import Mathlib

/-!
Verification development for the TEX texture codec of the Gimp-Tex-Plugin
repository.  The definitions below are a shallow embedding of the Python
sources (`gimp_tex_plugin_3.py` and, for the DXT5 encoder,
`GIMP_2_TEX_Plugin/gimp_tex_plugin.py`): byte buffers become `List Nat`
(each element a byte value), fallible operations return `Option` or
`Except`, and the in-place pixel writes of the Python loops become
functional list updates with the same slice semantics.
-/

/-! ## Byte-stream primitives (struct.unpack / struct.pack, little endian) -/

/-- Little-endian interpretation of a byte list, as in `int.from_bytes(bs, 'little')`. -/
def bytesToNatLE (bs : List Nat) : Nat :=
  bs.foldr (fun b acc => b + 256 * acc) 0

/-- Read `n` bytes little-endian from the front of a stream, as one
`struct.unpack('<…', f.read(n))` step; `none` models the exception raised on a
short read. -/
def readULE : Nat → List Nat → Option (Nat × List Nat)
  | 0, bs => some (0, bs)
  | _ + 1, [] => none
  | n + 1, b :: rest =>
    match readULE n rest with
    | none => none
    | some (v, rem) => some (b + 256 * v, rem)

/-- `struct.pack('<H', v)`: two little-endian bytes. -/
def u16LE (v : Nat) : List Nat := [v % 256, v / 256 % 256]

/-- `struct.pack('<I', v)`: four little-endian bytes. -/
def u32LE (v : Nat) : List Nat :=
  [v % 256, v / 256 % 256, v / 65536 % 256, v / 16777216 % 256]

/-! ## TEX container data model (`class TEXFormat`, `class TEX`) -/

def TEXFormat.DXT1 : Nat := 10
def TEXFormat.DXT5 : Nat := 12
def TEXFormat.BGRA8 : Nat := 20

/-- The error taxonomy of the read / decode paths (each `raise` in the Python
source, plus `indexError` for a Python `IndexError` on an out-of-range
element access). -/
inductive TexError where
  | invalidSignature
  | unexpectedEndOfData
  | truncatedMipLevel
  | noTextureData
  | unsupportedFormat
  | indexError
deriving DecidableEq

/-- The `TEX` object: header fields plus ordered mip-level buffers
(smallest first). -/
structure TEX where
  width : Nat
  height : Nat
  format : Nat
  mipmaps : Bool
  data : List (List Nat)
deriving DecidableEq

instance {ε α : Type} [DecidableEq ε] [DecidableEq α] : DecidableEq (Except ε α) :=
  fun x y =>
    match x, y with
    | .ok a, .ok b =>
      if h : a = b then .isTrue (by rw [h]) else .isFalse (fun hc => by cases hc; exact h rfl)
    | .error a, .error b =>
      if h : a = b then .isTrue (by rw [h]) else .isFalse (fun hc => by cases hc; exact h rfl)
    | .ok _, .error _ => .isFalse (fun hc => by cases hc)
    | .error _, .ok _ => .isFalse (fun hc => by cases hc)

/-! ## Mipmap sizing (the arithmetic inside `TEX.read`) -/

/-- Number of leading zero bits among the low `n` bits of `v`, scanning from
the most significant end: the length of `f'{v:032b}'.split('1', 1)[0]` when
`n = 32` and `v < 2^32`. -/
def countLeadingZeros (v : Nat) : Nat → Nat
  | 0 => 0
  | n + 1 => if v.testBit n then 0 else countLeadingZeros v n + 1

/-- `mipmap_count = 32 - len(f'{max(w,h):032b}'.split('1', 1)[0])`. -/
def mipmapCount (v : Nat) : Nat := 32 - countLeadingZeros v 32

/-- The `(block_size, bytes_per_block)` pair chosen by the if/elif/else chain
in `TEX.read`. -/
def blockParams (format : Nat) : Nat × Nat :=
  if format = TEXFormat.DXT1 then (4, 8)
  else if format = TEXFormat.DXT5 then (4, 16)
  else (1, 4)

/-- Byte size of mip level `i` as computed in the read loop:
`current_width = max(width // (1 << i), 1)` (same for height),
`block_width = (current_width + block_size - 1) // block_size`,
`current_size = bytes_per_block * block_width * block_height`. -/
def levelSize (width height blockSize bytesPerBlock i : Nat) : Nat :=
  let currentWidth := max (width / (1 <<< i)) 1
  let currentHeight := max (height / (1 <<< i)) 1
  let blockWidth := (currentWidth + blockSize - 1) / blockSize
  let blockHeight := (currentHeight + blockSize - 1) / blockSize
  bytesPerBlock * blockWidth * blockHeight

/-- The ordered (smallest mip first) list of level byte sizes read by
`for i in reversed(range(mipmap_count))`. -/
def mipLevelSizes (width height format : Nat) : List Nat :=
  let p := blockParams format
  ((List.range (mipmapCount (max width height))).reverse).map
    (levelSize width height p.1 p.2)

/-- The mip-level reading loop: each level must deliver its exact byte count
(`if len(data_chunk) < current_size: raise`). -/
def readLevels : List Nat → List Nat → Except TexError (List (List Nat))
  | [], _ => .ok []
  | size :: rest, bs =>
    if size ≤ bs.length then
      match readLevels rest (bs.drop size) with
      | .ok levels => .ok (bs.take size :: levels)
      | .error e => .error e
    else .error .truncatedMipLevel

/-! ## Container read / write (`TEX.read`, `TEX.write`) -/

/-- `TEX.read` over an in-memory byte stream. -/
def TEX.read (bs : List Nat) : Except TexError TEX :=
  match readULE 4 bs with
  | none => .error .unexpectedEndOfData
  | some (signature, r1) =>
    if signature ≠ 0x00584554 then .error .invalidSignature else
    match readULE 2 r1 with
    | none => .error .unexpectedEndOfData
    | some (width, r2) =>
    match readULE 2 r2 with
    | none => .error .unexpectedEndOfData
    | some (height, r3) =>
    match readULE 1 r3 with
    | none => .error .unexpectedEndOfData
    | some (_unknown1, r4) =>
    match readULE 1 r4 with
    | none => .error .unexpectedEndOfData
    | some (format, r5) =>
    match readULE 1 r5 with
    | none => .error .unexpectedEndOfData
    | some (_unknown2, r6) =>
    match readULE 1 r6 with
    | none => .error .unexpectedEndOfData
    | some (mipByte, r7) =>
    let mipmaps : Bool := mipByte != 0
    if mipmaps && ((format == TEXFormat.DXT1) || (format == TEXFormat.DXT5)
        || (format == TEXFormat.BGRA8)) then
      match readLevels (mipLevelSizes width height format) r7 with
      | .ok levels => .ok ⟨width, height, format, mipmaps, levels⟩
      | .error e => .error e
    else
      if r7 = [] then .error .noTextureData
      else .ok ⟨width, height, format, mipmaps, [r7]⟩

/-- `TEX.write`: the 12-byte header followed by `self.data[0]` only (the
Python code raises on an empty `data`, so callers pass a nonempty list;
`headD` stands in for `data[0]`). -/
def TEX.write (t : TEX) : List Nat :=
  u32LE 0x00584554 ++ u16LE t.width ++ u16LE t.height
    ++ [1, t.format % 256, 0, if t.mipmaps then 1 else 0]
    ++ t.data.headD []

/-! ## DXT block decoding (`decompress_dxt1_block`, `decompress_dxt5_block`) -/

/-- Expand a packed RGB565 value to 8-bit components:
`((c >> 11) & 0x1F) << 3, ((c >> 5) & 0x3F) << 2, (c & 0x1F) << 3`. -/
def expand565 (c : Nat) : Nat × Nat × Nat :=
  (((c >>> 11) % 32) <<< 3, ((c >>> 5) % 64) <<< 2, (c % 32) <<< 3)

/-- The 4-entry DXT1 color palette with its `color0 > color1` branch. -/
def dxt1Colors (color0 color1 : Nat) : List (Nat × Nat × Nat × Nat) :=
  let e0 := expand565 color0
  let e1 := expand565 color1
  let r0 := e0.1; let g0 := e0.2.1; let b0 := e0.2.2
  let r1 := e1.1; let g1 := e1.2.1; let b1 := e1.2.2
  if color0 > color1 then
    [(r0, g0, b0, 255), (r1, g1, b1, 255),
     ((r0 * 2 + r1) / 3, (g0 * 2 + g1) / 3, (b0 * 2 + b1) / 3, 255),
     ((r0 + r1 * 2) / 3, (g0 + g1 * 2) / 3, (b0 + b1 * 2) / 3, 255)]
  else
    [(r0, g0, b0, 255), (r1, g1, b1, 255),
     ((r0 + r1) / 2, (g0 + g1) / 2, (b0 + b1) / 2, 255),
     (0, 0, 0, 0)]

/-- The 4-entry DXT5 color palette: no branch on the endpoint order. -/
def dxt5Colors (color0 color1 : Nat) : List (Nat × Nat × Nat) :=
  let e0 := expand565 color0
  let e1 := expand565 color1
  let r0 := e0.1; let g0 := e0.2.1; let b0 := e0.2.2
  let r1 := e1.1; let g1 := e1.2.1; let b1 := e1.2.2
  [(r0, g0, b0), (r1, g1, b1),
   ((r0 * 2 + r1) / 3, (g0 * 2 + g1) / 3, (b0 * 2 + b1) / 3),
   ((r0 + r1 * 2) / 3, (g0 + g1 * 2) / 3, (b0 + b1 * 2) / 3)]

/-- The 8-entry DXT5 alpha palette. -/
def dxt5Alphas (alpha0 alpha1 : Nat) : List Nat :=
  [alpha0, alpha1] ++
    (if alpha0 > alpha1 then
      (List.range' 1 6).map (fun i => ((7 - i) * alpha0 + i * alpha1) / 7)
    else
      ((List.range' 1 4).map (fun i => ((5 - i) * alpha0 + i * alpha1) / 5)) ++ [0, 255])

/-- Python slice assignment `pixels[i:i+4] = [r, g, b, a]`. -/
def setSlice4 (pixels : List Nat) (i r g b a : Nat) : List Nat :=
  pixels.take i ++ [r, g, b, a] ++ pixels.drop (i + 4)

/-- The nested `for py in range(4): for px in range(4):` pixel-write loop
shared by both block decoders; `value idx` is the `(r, g, b, a)` the decoder
computes for the in-block pixel index `idx = py * 4 + px`. -/
def decodeBlockLoop (value : Nat → Nat × Nat × Nat × Nat) (x y width height : Nat)
    (pixels : List Nat) : List Nat :=
  (List.range 4).foldl (fun pix py =>
    (List.range 4).foldl (fun pix px =>
      if x + px < width ∧ y + py < height then
        let idx := py * 4 + px
        let pixelIdx := ((y + py) * width + (x + px)) * 4
        let v := value idx
        setSlice4 pix pixelIdx v.1 v.2.1 v.2.2.1 v.2.2.2
      else pix) pix) pixels

/-- `decompress_dxt1_block`. -/
def decompress_dxt1_block (blockData : List Nat) (x y width height : Nat)
    (pixels : List Nat) : List Nat :=
  if blockData.length < 8 then pixels
  else
    let color0 := bytesToNatLE (blockData.take 2)
    let color1 := bytesToNatLE ((blockData.drop 2).take 2)
    let colorBits := bytesToNatLE ((blockData.drop 4).take 4)
    let colors := dxt1Colors color0 color1
    decodeBlockLoop
      (fun idx =>
        let colorIdx := (colorBits >>> (idx * 2)) % 4
        colors.getD colorIdx (0, 0, 0, 0))
      x y width height pixels

/-- `decompress_dxt5_block`. -/
def decompress_dxt5_block (blockData : List Nat) (x y width height : Nat)
    (pixels : List Nat) : List Nat :=
  if blockData.length < 16 then pixels
  else
    let alpha0 := blockData.getD 0 0
    let alpha1 := blockData.getD 1 0
    let alphaBits := bytesToNatLE ((blockData.drop 2).take 6)
    let alphas := dxt5Alphas alpha0 alpha1
    let color0 := bytesToNatLE ((blockData.drop 8).take 2)
    let color1 := bytesToNatLE ((blockData.drop 10).take 2)
    let colorBits := bytesToNatLE ((blockData.drop 12).take 4)
    let colors := dxt5Colors color0 color1
    decodeBlockLoop
      (fun idx =>
        let alphaIdx := (alphaBits >>> (idx * 3)) % 8
        let colorIdx := (colorBits >>> (idx * 2)) % 4
        let c := colors.getD colorIdx (0, 0, 0)
        (c.1, c.2.1, c.2.2, alphas.getD alphaIdx 0))
      x y width height pixels

/-! ## Full-image decoding (`decompress_tex_to_rgba`) -/

/-- Single checked byte store `l[i] = v` (Python raises `IndexError` when the
index is out of range). -/
def setB (l : List Nat) (i v : Nat) : Option (List Nat) :=
  if i < l.length then some (l.set i v) else none

/-- Body of the BGRA-to-RGBA loop
`for i in range(0, len(data), 4): if i + 3 < len(data): …`, iterating
`fuel = ceil(len(data) / 4)` times from byte offset `i`. -/
def bgraDecodeGo (data : List Nat) : Nat → Nat → List Nat → Option (List Nat)
  | _, 0, pixels => some pixels
  | i, fuel + 1, pixels =>
    if i + 3 < data.length then
      match setB pixels i (data.getD (i + 2) 0) with
      | none => none
      | some p1 =>
        match setB p1 (i + 1) (data.getD (i + 1) 0) with
        | none => none
        | some p2 =>
          match setB p2 (i + 2) (data.getD i 0) with
          | none => none
          | some p3 =>
            match setB p3 (i + 3) (data.getD (i + 3) 0) with
            | none => none
            | some p4 => bgraDecodeGo data (i + 4) fuel p4
    else bgraDecodeGo data (i + 4) fuel pixels

/-- The whole BGRA branch loop of `decompress_tex_to_rgba`. -/
def bgraDecodeLoop (data pixels : List Nat) : Option (List Nat) :=
  bgraDecodeGo data 0 ((data.length + 3) / 4) pixels

/-- The DXT1 block loop of `decompress_tex_to_rgba`. -/
def dxt1DecodeImage (data : List Nat) (width height : Nat) (pixels : List Nat) :
    List Nat :=
  let blockWidth := (width + 3) / 4
  let blockHeight := (height + 3) / 4
  (List.range blockHeight).foldl (fun pix yb =>
    (List.range blockWidth).foldl (fun pix xb =>
      if (yb * blockWidth + xb) * 8 + 8 ≤ data.length then
        decompress_dxt1_block ((data.drop ((yb * blockWidth + xb) * 8)).take 8)
          (xb * 4) (yb * 4) width height pix
      else pix) pix) pixels

/-- The DXT5 block loop of `decompress_tex_to_rgba`. -/
def dxt5DecodeImage (data : List Nat) (width height : Nat) (pixels : List Nat) :
    List Nat :=
  let blockWidth := (width + 3) / 4
  let blockHeight := (height + 3) / 4
  (List.range blockHeight).foldl (fun pix yb =>
    (List.range blockWidth).foldl (fun pix xb =>
      if (yb * blockWidth + xb) * 16 + 16 ≤ data.length then
        decompress_dxt5_block ((data.drop ((yb * blockWidth + xb) * 16)).take 16)
          (xb * 4) (yb * 4) width height pix
      else pix) pix) pixels

/-- Level-buffer choice:
`data = tex.data[-1] if tex.mipmaps and len(tex.data) > 0 else tex.data[0]`
(`none` models the `IndexError` of `tex.data[0]` on an empty list). -/
def selectData (tex : TEX) : Option (List Nat) :=
  if tex.mipmaps ∧ 0 < tex.data.length then tex.data.getLast? else tex.data.head?

/-- `decompress_tex_to_rgba`. -/
def decompress_tex_to_rgba (tex : TEX) : Except TexError (List Nat) :=
  match selectData tex with
  | none => .error .indexError
  | some data =>
    let pixels := List.replicate (tex.width * tex.height * 4) 0
    if tex.format = TEXFormat.BGRA8 then
      match bgraDecodeLoop data pixels with
      | some out => .ok out
      | none => .error .indexError
    else if tex.format = TEXFormat.DXT1 then
      .ok (dxt1DecodeImage data tex.width tex.height pixels)
    else if tex.format = TEXFormat.DXT5 then
      .ok (dxt5DecodeImage data tex.width tex.height pixels)
    else .error .unsupportedFormat

/-! ## Encoding: RGBA to BGRA (`export_tex`) and the DXT5 block-pixel
gathering of `compress_dxt5_block` (GIMP 2 plugin) -/

/-- Body of the RGBA-to-BGRA export loop
`for i in range(0, len(pixel_data), 4):` with its four unguarded reads and
writes per group (`none` models an `IndexError`). -/
def rgbaToBgraGo (pd : List Nat) : Nat → Nat → List Nat → Option (List Nat)
  | _, 0, bgra => some bgra
  | i, fuel + 1, bgra =>
    match pd.get? (i + 2) with
    | none => none
    | some vb =>
      match setB bgra i vb with
      | none => none
      | some a1 =>
        match pd.get? (i + 1) with
        | none => none
        | some vg =>
          match setB a1 (i + 1) vg with
          | none => none
          | some a2 =>
            match pd.get? i with
            | none => none
            | some vr =>
              match setB a2 (i + 2) vr with
              | none => none
              | some a3 =>
                match pd.get? (i + 3) with
                | none => none
                | some va =>
                  match setB a3 (i + 3) va with
                  | none => none
                  | some a4 => rgbaToBgraGo pd (i + 4) fuel a4

/-- The export-side conversion: `bgra = bytearray(len(pixel_data))` then the
per-group swap loop. -/
def rgbaToBgra (pd : List Nat) : Option (List Nat) :=
  rgbaToBgraGo pd 0 ((pd.length + 3) / 4) (List.replicate pd.length 0)

/-- One iteration of the source-pixel gathering loop at the start of
`compress_dxt5_block`: an in-bounds position appends its `((r,g,b), a)` (when
the buffer covers it), an out-of-bounds position appends `((0,0,0), 0)`. -/
def gatherStep (pixels : List Nat) (x y width height py px : Nat) :
    List ((Nat × Nat × Nat) × Nat) :=
  if x + px < width ∧ y + py < height then
    (let idx := ((y + py) * width + (x + px)) * 4
     if idx + 3 < pixels.length then
       [((pixels.getD idx 0, pixels.getD (idx + 1) 0, pixels.getD (idx + 2) 0),
         pixels.getD (idx + 3) 0)]
     else [])
  else [((0, 0, 0), 0)]

/-- The `block_pixels` / `alphas` gathering loop of `compress_dxt5_block`
(the two parallel Python lists are zipped into one list of pairs). -/
def gatherBlock (pixels : List Nat) (x y width height : Nat) :
    List ((Nat × Nat × Nat) × Nat) :=
  (List.range 4).foldl (fun acc py =>
    (List.range 4).foldl (fun acc px =>
      acc ++ gatherStep pixels x y width height py px) acc) []

/-! ## Helper lemmas -/

theorem foldl_inv {α β : Type} (P : β → Prop) (f : β → α → β) :
    ∀ (L : List α) (b : β), P b → (∀ b a, a ∈ L → P b → P (f b a)) →
      P (L.foldl f b) := by
  intro L
  induction L with
  | nil => intro b hb _; exact hb
  | cons a L ih =>
    intro b hb hstep
    exact ih (f b a) (hstep b a (List.mem_cons_self a L) hb)
      (fun b' a' ha' hb' => hstep b' a' (List.mem_cons_of_mem a ha') hb')

theorem rowcol_lt {a b w h : Nat} (ha : a < h) (hb : b < w) :
    a * w + b < h * w := by
  calc a * w + b < a * w + w := by omega
  _ = (a + 1) * w := by ring
  _ ≤ h * w := Nat.mul_le_mul_right w ha

theorem setSlice4_length (pixels : List Nat) (i r g b a : Nat)
    (h : i + 4 ≤ pixels.length) :
    (setSlice4 pixels i r g b a).length = pixels.length := by
  simp [setSlice4]
  omega

theorem setSlice4_getD_outside (pixels : List Nat) (i r g b a j d : Nat)
    (h : i + 4 ≤ pixels.length) (hj : j < i ∨ i + 4 ≤ j) :
    (setSlice4 pixels i r g b a).getD j d = pixels.getD j d := by
  unfold setSlice4
  have ht : (List.take i pixels).length = i := by
    rw [List.length_take]; exact Nat.min_eq_left (by omega)
  rcases hj with hj | hj
  · rw [List.getD_append _ _ _ j
      (by rw [List.length_append, ht]; simp only [List.length_cons, List.length_nil]; omega)]
    rw [List.getD_append _ _ _ j (by rw [ht]; omega)]
    rw [List.getD_eq_get?, List.getD_eq_get?, List.get?_take hj]
  · rw [List.getD_append_right _ _ _ j
      (by rw [List.length_append, ht]; simp only [List.length_cons, List.length_nil]; omega)]
    have hlen2 : (List.take i pixels ++ [r, g, b, a]).length = i + 4 := by
      rw [List.length_append, ht]; simp only [List.length_cons, List.length_nil]
    rw [hlen2]
    rw [List.getD_eq_get?, List.getD_eq_get?, List.get?_drop]
    have heq : i + 4 + (j - (i + 4)) = j := by omega
    rw [heq]

theorem decodeBlockLoop_length (value : Nat → Nat × Nat × Nat × Nat)
    (x y width height : Nat) (pixels : List Nat)
    (h : pixels.length = width * height * 4) :
    (decodeBlockLoop value x y width height pixels).length = pixels.length := by
  rw [h]
  unfold decodeBlockLoop
  refine foldl_inv (fun (pix : List Nat) => pix.length = width * height * 4) _ _ _ h ?_
  intro pix py _ hpix
  refine foldl_inv (fun (pix : List Nat) => pix.length = width * height * 4) _ _ _ hpix ?_
  intro pix' px _ hpix'
  by_cases hin : x + px < width ∧ y + py < height
  · simp only [if_pos hin]
    have hrc := rowcol_lt hin.2 hin.1
    have hc : height * width = width * height := Nat.mul_comm height width
    rw [setSlice4_length _ _ _ _ _ _ (by omega), hpix']
  · simp only [if_neg hin]
    exact hpix'

theorem decodeBlockLoop_getD_outside (value : Nat → Nat × Nat × Nat × Nat)
    (x y width height : Nat) (pixels : List Nat) (j d : Nat)
    (hlen : pixels.length = width * height * 4)
    (hj : ∀ px py, px < 4 → py < 4 → x + px < width → y + py < height →
      j < ((y + py) * width + (x + px)) * 4 ∨
        ((y + py) * width + (x + px)) * 4 + 4 ≤ j) :
    (decodeBlockLoop value x y width height pixels).getD j d = pixels.getD j d := by
  unfold decodeBlockLoop
  refine (foldl_inv (fun (pix : List Nat) =>
    pix.length = width * height * 4 ∧ pix.getD j d = pixels.getD j d)
    _ _ _ ⟨hlen, rfl⟩ ?_).2
  intro pix py hpy hpix
  rw [List.mem_range] at hpy
  refine foldl_inv (fun (pix : List Nat) =>
    pix.length = width * height * 4 ∧ pix.getD j d = pixels.getD j d) _ _ _ hpix ?_
  intro pix' px hpx hpix'
  rw [List.mem_range] at hpx
  by_cases hin : x + px < width ∧ y + py < height
  · simp only [if_pos hin]
    have hrc := rowcol_lt hin.2 hin.1
    have hc : height * width = width * height := Nat.mul_comm height width
    have hp := hpix'.1
    have hidx : ((y + py) * width + (x + px)) * 4 + 4 ≤ pix'.length := by omega
    constructor
    · rw [setSlice4_length _ _ _ _ _ _ hidx]
      exact hpix'.1
    · rw [setSlice4_getD_outside _ _ _ _ _ _ _ _ hidx (hj px py hpx hpy hin.1 hin.2)]
      exact hpix'.2
  · simp only [if_neg hin]
    exact hpix'

/-! ## Claim C1 -/

set_option maxRecDepth 8192 in
/-- C1: the round-trip / writer claim fails on the code.  At a mipmapped
2×2 DXT5 image whose two level buffers (16 bytes each) match the mip chain
layout, `TEX.write` emits only the first (smallest) level buffer — 28 bytes,
not 12 + 32 — and reading the written container back fails with the
truncated-mip-level error instead of reproducing the image. -/
theorem c1_write_drops_mip_levels :
    (mipLevelSizes 2 2 TEXFormat.DXT5 = [16, 16] ∧
      (TEX.write ⟨2, 2, TEXFormat.DXT5, true,
        [List.replicate 16 0, List.replicate 16 1]⟩).length = 12 + 16) ∧
    TEX.read (TEX.write ⟨2, 2, TEXFormat.DXT5, true,
        [List.replicate 16 0, List.replicate 16 1]⟩) =
      Except.error TexError.truncatedMipLevel := by
  decide

/-! ## Claim C2 -/

/-- C2 counterexample: the level size list the claim states for a
256×256 DXT5 mip chain is not the one the read path computes. -/
theorem c2_claimed_sizes_wrong :
    mipLevelSizes 256 256 TEXFormat.DXT5 ≠
      [16, 16, 64, 256, 1024, 4096, 16384, 65536, 262144] := by
  decide

/-- C2 amended: for width 256, height 256, DXT5, the read path uses mip
count 9 and level sizes `[16, 16, 16, 64, 256, 1024, 4096, 16384, 65536]`
(smallest to largest): the three smallest levels (1×1, 2×2, 4×4) each
occupy a single 16-byte block. -/
theorem c2_sizes_256_dxt5 :
    mipmapCount (max 256 256) = 9 ∧
      mipLevelSizes 256 256 TEXFormat.DXT5 =
        [16, 16, 16, 64, 256, 1024, 4096, 16384, 65536] := by
  decide

/-! ## Claim C4 -/

set_option maxRecDepth 8192 in
/-- C4: whenever the raw 16-bit endpoints satisfy `c0 ≤ c1`, the DXT1
palette has entry 2 the componentwise average of the two expanded endpoints
(opaque) and entry 3 fully transparent `(0,0,0,0)`; and the known vector
`00 00 FF FF FF FF FF FF` decodes every pixel of a 4×4 block to
`(0,0,0,0)` (initial buffer of 7s becomes all zeros). -/
theorem c4_dxt1_transparent_mode (c0 c1 : Nat) (h : c0 ≤ c1) :
    dxt1Colors c0 c1 =
      [((expand565 c0).1, (expand565 c0).2.1, (expand565 c0).2.2, 255),
       ((expand565 c1).1, (expand565 c1).2.1, (expand565 c1).2.2, 255),
       (((expand565 c0).1 + (expand565 c1).1) / 2,
        ((expand565 c0).2.1 + (expand565 c1).2.1) / 2,
        ((expand565 c0).2.2 + (expand565 c1).2.2) / 2, 255),
       (0, 0, 0, 0)]
    ∧ decompress_dxt1_block [0x00, 0x00, 0xFF, 0xFF, 0xFF, 0xFF, 0xFF, 0xFF]
        0 0 4 4 (List.replicate 64 7) = List.replicate 64 0 := by
  constructor
  · simp only [dxt1Colors]
    rw [if_neg (by omega)]
  · decide

/-- Witness for C4 at `c0 = 0`, `c1 = 0xFFFF`. -/
theorem c4_witness :
    (0 : Nat) ≤ 0xFFFF ∧
      (dxt1Colors 0 0xFFFF =
        [((expand565 0).1, (expand565 0).2.1, (expand565 0).2.2, 255),
         ((expand565 0xFFFF).1, (expand565 0xFFFF).2.1, (expand565 0xFFFF).2.2, 255),
         (((expand565 0).1 + (expand565 0xFFFF).1) / 2,
          ((expand565 0).2.1 + (expand565 0xFFFF).2.1) / 2,
          ((expand565 0).2.2 + (expand565 0xFFFF).2.2) / 2, 255),
         (0, 0, 0, 0)]
      ∧ decompress_dxt1_block [0x00, 0x00, 0xFF, 0xFF, 0xFF, 0xFF, 0xFF, 0xFF]
          0 0 4 4 (List.replicate 64 7) = List.replicate 64 0) :=
  ⟨by decide, c4_dxt1_transparent_mode 0 0xFFFF (by decide)⟩

/-! ## Claim C5 -/

/-- Modelled from the spec wording of §4.4 for comparison with the code: the
always-opaque 4-entry color palette, entries 2 and 3 being the truncating
interpolations `(2·c0 + c1)/3` and `(c0 + 2·c1)/3` of the expanded
endpoints, with no transparency-mode branch and no alpha carried. -/
def specOpaqueColorPalette (c0 c1 : Nat) : List (Nat × Nat × Nat) :=
  let e0 := expand565 c0
  let e1 := expand565 c1
  [e0, e1,
   ((2 * e0.1 + e1.1) / 3, (2 * e0.2.1 + e1.2.1) / 3, (2 * e0.2.2 + e1.2.2) / 3),
   ((e0.1 + 2 * e1.1) / 3, (e0.2.1 + 2 * e1.2.1) / 3, (e0.2.2 + 2 * e1.2.2) / 3)]

/-- C5: the DXT5 color palette is the spec's opaque palette for every pair
of endpoints — no branch on `c0 > c1` — and whenever `c0 > c1` holds it
coincides with DXT1's opaque-mode palette with alpha 255 attached; the
DXT5 color decode therefore never produces a transparent palette entry. -/
theorem c5_dxt5_opaque_color_palette (c0 c1 : Nat) :
    dxt5Colors c0 c1 = specOpaqueColorPalette c0 c1
    ∧ (c1 < c0 →
        dxt1Colors c0 c1 = (dxt5Colors c0 c1).map (fun c => (c.1, c.2.1, c.2.2, 255))) := by
  constructor
  · simp only [dxt5Colors, specOpaqueColorPalette]
    norm_num [Nat.mul_comm]
  · intro hgt
    simp only [dxt1Colors, dxt5Colors]
    rw [if_pos (by omega)]
    simp

/-- Witness for C5 at `c0 = 2`, `c1 = 1`. -/
theorem c5_witness :
    dxt5Colors 2 1 = specOpaqueColorPalette 2 1
    ∧ dxt1Colors 2 1 = (dxt5Colors 2 1).map (fun c => (c.1, c.2.1, c.2.2, 255)) :=
  ⟨(c5_dxt5_opaque_color_palette 2 1).1,
   (c5_dxt5_opaque_color_palette 2 1).2 (by decide)⟩

/-! ## Claim C3 -/

theorem countLeadingZeros_eq (n : Nat) : ∀ v, 1 ≤ v → v < 2 ^ n →
    countLeadingZeros v n = n - (Nat.log2 v + 1) := by
  induction n with
  | zero =>
    intro v h1 h2
    simp at h2
    omega
  | succ n ih =>
    intro v h1 h2
    by_cases hb : v.testBit n = true
    · simp only [countLeadingZeros]
      rw [if_pos hb]
      have hdm := @Nat.testBit_to_div_mod n v
      rw [hb] at hdm
      have hd : v / 2 ^ n % 2 = 1 := of_decide_eq_true hdm.symm
      have h2n : 2 ^ n ≤ v := by
        have hq : 1 ≤ v / 2 ^ n := by
          rcases Nat.eq_zero_or_pos (v / 2 ^ n) with h0 | hpos
          · rw [h0] at hd
            simp at hd
          · exact hpos
        calc 2 ^ n = 1 * 2 ^ n := by ring
        _ ≤ v / 2 ^ n * 2 ^ n := Nat.mul_le_mul_right _ hq
        _ ≤ v := Nat.div_mul_le_self v (2 ^ n)
      have hlog : Nat.log2 v = n := by
        have ha := (Nat.log2_lt (show v ≠ 0 by omega)).2 h2
        have hbb := (Nat.le_log2 (show v ≠ 0 by omega)).2 h2n
        omega
      rw [hlog]
      omega
    · have hb' : v.testBit n = false := by simpa using hb
      simp only [countLeadingZeros]
      rw [if_neg (by simp [hb'])]
      have hdm := @Nat.testBit_to_div_mod n v
      rw [hb'] at hdm
      have hd : ¬ (v / 2 ^ n % 2 = 1) := of_decide_eq_false hdm.symm
      have hdiv2 : v / 2 ^ n < 2 := by
        apply Nat.div_lt_of_lt_mul
        rw [pow_succ] at h2
        omega
      have hvn : v < 2 ^ n := by
        by_contra hcon
        push_neg at hcon
        have hone : 1 ≤ v / 2 ^ n := (Nat.one_le_div_iff (by positivity)).2 hcon
        omega
      rw [ih v h1 hvn]
      have hlt : Nat.log2 v < n := (Nat.log2_lt (by omega)).2 hvn
      omega

theorem mipmapCount_eq_log2 (v : Nat) (h1 : 1 ≤ v) (h2 : v < 2 ^ 32) :
    mipmapCount v = Nat.log2 v + 1 := by
  unfold mipmapCount
  rw [countLeadingZeros_eq 32 v h1 h2]
  have hlt : Nat.log2 v < 32 := (Nat.log2_lt (by omega)).2 h2
  omega

/-- Modelled from the spec (§4.3): ceiling division written as the spec's
`ceil(a / b)`. -/
def specCeilDiv (a b : Nat) : Nat := a / b + if a % b = 0 then 0 else 1

/-- Modelled from the spec (§4.3): `levelSize = S * ceil(max(w >> i, 1)/B) *
ceil(max(h >> i, 1)/B)`. -/
def specLevelSize (width height B S i : Nat) : Nat :=
  S * specCeilDiv (max (width >>> i) 1) B * specCeilDiv (max (height >>> i) 1) B

theorem ceilDiv_eq (a b : Nat) (hb : 0 < b) : (a + b - 1) / b = specCeilDiv a b := by
  unfold specCeilDiv
  have hq := Nat.div_add_mod a b
  have hr := Nat.mod_lt a hb
  by_cases h : a % b = 0
  · rw [if_pos h]
    have ha : a + b - 1 = b * (a / b) + (b - 1) := by omega
    rw [ha, Nat.mul_add_div hb, Nat.div_eq_of_lt (show b - 1 < b by omega)]
  · rw [if_neg h]
    have hx : b * (a / b + 1) = b * (a / b) + b := by ring
    have ha : a + b - 1 = b * (a / b + 1) + (a % b - 1) := by omega
    rw [ha, Nat.mul_add_div hb, Nat.div_eq_of_lt (show a % b - 1 < b by omega)]

theorem levelSize_eq_spec (width height B S i : Nat) (hB : 0 < B) :
    levelSize width height B S i = specLevelSize width height B S i := by
  simp only [levelSize, specLevelSize, Nat.one_shiftLeft, Nat.shiftRight_eq_div_pow]
  rw [ceilDiv_eq _ _ hB, ceilDiv_eq _ _ hB]

/-- C3: for 16-bit dimensions at least 1, the read path's mip count equals
`floor(log2(max(width, height))) + 1`, and for every mip index `i` the level
size it reads equals the spec's `S * ceil(max(w >> i, 1)/B) *
ceil(max(h >> i, 1)/B)` with `(B, S)` = (4, 8) for DXT1, (4, 16) for DXT5,
(1, 4) for BGRA8. -/
theorem c3_mip_count_and_level_sizes (w h i : Nat) (hw1 : 1 ≤ w) (hh1 : 1 ≤ h)
    (hw2 : w < 65536) (hh2 : h < 65536) :
    mipmapCount (max w h) = Nat.log2 (max w h) + 1
    ∧ levelSize w h (blockParams TEXFormat.DXT1).1 (blockParams TEXFormat.DXT1).2 i
        = specLevelSize w h 4 8 i
    ∧ levelSize w h (blockParams TEXFormat.DXT5).1 (blockParams TEXFormat.DXT5).2 i
        = specLevelSize w h 4 16 i
    ∧ levelSize w h (blockParams TEXFormat.BGRA8).1 (blockParams TEXFormat.BGRA8).2 i
        = specLevelSize w h 1 4 i := by
  refine ⟨?_, ?_, ?_, ?_⟩
  · refine mipmapCount_eq_log2 _ (le_max_of_le_left hw1) ?_
    have hm : max w h < 65536 := by omega
    calc max w h < 65536 := hm
    _ ≤ 2 ^ 32 := by norm_num
  · exact levelSize_eq_spec w h 4 8 i (by norm_num)
  · exact levelSize_eq_spec w h 4 16 i (by norm_num)
  · exact levelSize_eq_spec w h 1 4 i (by norm_num)

/-- Witness for C3 at `w = h = 256`, `i = 3`. -/
theorem c3_witness :
    ((1 : Nat) ≤ 256 ∧ (256 : Nat) < 65536) ∧
      (mipmapCount (max 256 256) = Nat.log2 (max 256 256) + 1
       ∧ levelSize 256 256 (blockParams TEXFormat.DXT1).1
           (blockParams TEXFormat.DXT1).2 3 = specLevelSize 256 256 4 8 3
       ∧ levelSize 256 256 (blockParams TEXFormat.DXT5).1
           (blockParams TEXFormat.DXT5).2 3 = specLevelSize 256 256 4 16 3
       ∧ levelSize 256 256 (blockParams TEXFormat.BGRA8).1
           (blockParams TEXFormat.BGRA8).2 3 = specLevelSize 256 256 1 4 3) :=
  ⟨⟨by decide, by decide⟩,
   c3_mip_count_and_level_sizes 256 256 3 (by decide) (by decide) (by decide) (by decide)⟩

/-! ## Header evaluation lemmas -/

theorem readULE_one (b0 : Nat) (rest : List Nat) :
    readULE 1 (b0 :: rest) = some (b0, rest) := rfl

theorem readULE_two (b0 b1 : Nat) (rest : List Nat) :
    readULE 2 (b0 :: b1 :: rest) = some (b0 + 256 * b1, rest) := rfl

theorem readULE_four (b0 b1 b2 b3 : Nat) (rest : List Nat) :
    readULE 4 (b0 :: b1 :: b2 :: b3 :: rest) =
      some (b0 + 256 * (b1 + 256 * (b2 + 256 * b3)), rest) := rfl

/-- Reading any container whose 12-byte header was assembled from fields
`w, h, u1, fmt, u2, m` (with 16-bit dimensions) reduces to the body logic on
the payload. -/
theorem TEX.read_header (w h u1 fmt u2 m : Nat) (payload : List Nat)
    (hw : w < 65536) (hh : h < 65536) :
    TEX.read (u32LE 0x00584554 ++ u16LE w ++ u16LE h ++ [u1, fmt, u2, m] ++ payload) =
      (if (m != 0) && ((fmt == TEXFormat.DXT1) || (fmt == TEXFormat.DXT5)
          || (fmt == TEXFormat.BGRA8)) then
        match readLevels (mipLevelSizes w h fmt) payload with
        | .ok levels => .ok ⟨w, h, fmt, m != 0, levels⟩
        | .error e => .error e
      else if payload = [] then .error .noTextureData
      else .ok ⟨w, h, fmt, m != 0, [payload]⟩) := by
  have hwv : w % 256 + 256 * (w / 256 % 256) = w := by omega
  have hhv : h % 256 + 256 * (h / 256 % 256) = h := by omega
  simp [TEX.read, u32LE, u16LE, readULE_four, readULE_two, readULE_one, hwv, hhv]

/-! ## Claim C6 -/

theorem readLevels_short (sizes : List Nat) : ∀ bs : List Nat,
    bs.length < sizes.sum →
    readLevels sizes bs = .error .truncatedMipLevel := by
  induction sizes with
  | nil =>
    intro bs hlen
    simp at hlen
  | cons s rest ih =>
    intro bs hlen
    rw [List.sum_cons] at hlen
    simp only [readLevels]
    by_cases hle : s ≤ bs.length
    · rw [if_pos hle]
      rw [ih (bs.drop s) (by rw [List.length_drop]; omega)]
    · rw [if_neg hle]

/-- C6: a container whose header declares mipmaps and a supported format but
whose payload is shorter than the total computed mip chain size fails with
the truncated-mip-level error, producing no TextureImage. -/
theorem c6_truncated_payload (w h u1 fmt u2 m : Nat) (payload : List Nat)
    (hw : w < 65536) (hh : h < 65536)
    (hfmt : fmt = TEXFormat.DXT1 ∨ fmt = TEXFormat.DXT5 ∨ fmt = TEXFormat.BGRA8)
    (hm : m ≠ 0)
    (hshort : payload.length < (mipLevelSizes w h fmt).sum) :
    TEX.read (u32LE 0x00584554 ++ u16LE w ++ u16LE h ++ [u1, fmt, u2, m] ++ payload)
      = .error .truncatedMipLevel := by
  rw [TEX.read_header w h u1 fmt u2 m payload hw hh]
  have hmb : (m != 0) = true := by simpa using hm
  have hfb : ((fmt == TEXFormat.DXT1) || (fmt == TEXFormat.DXT5)
      || (fmt == TEXFormat.BGRA8)) = true := by
    rcases hfmt with hf | hf | hf <;> subst hf <;> simp
  rw [hmb, hfb]
  simp only [Bool.and_self, if_true]
  rw [readLevels_short _ _ hshort]

/-- Witness for C6: a 1×1 DXT5 container claiming mipmaps with an empty
payload (total chain size 16). -/
theorem c6_witness :
    ([] : List Nat).length < (mipLevelSizes 1 1 TEXFormat.DXT5).sum ∧
      TEX.read (u32LE 0x00584554 ++ u16LE 1 ++ u16LE 1
          ++ [1, TEXFormat.DXT5, 0, 1] ++ ([] : List Nat))
        = .error .truncatedMipLevel :=
  ⟨by decide,
   c6_truncated_payload 1 1 1 TEXFormat.DXT5 0 1 [] (by decide) (by decide)
     (by decide) (by decide) (by decide)⟩

/-! ## Claim C7 -/

/-- C7: a container with a format code outside {DXT1, DXT5, BGRA8} and a
non-empty payload parses successfully, preserving the format code, and
decoding the parsed TextureImage fails with the unsupported-format error. -/
theorem c7_unknown_format_parses_decode_fails (w h u1 fmt u2 m : Nat)
    (payload : List Nat) (hw : w < 65536) (hh : h < 65536)
    (hf1 : fmt ≠ TEXFormat.DXT1) (hf2 : fmt ≠ TEXFormat.DXT5)
    (hf3 : fmt ≠ TEXFormat.BGRA8) (hp : payload ≠ []) :
    TEX.read (u32LE 0x00584554 ++ u16LE w ++ u16LE h ++ [u1, fmt, u2, m] ++ payload)
      = .ok ⟨w, h, fmt, m != 0, [payload]⟩
    ∧ decompress_tex_to_rgba ⟨w, h, fmt, m != 0, [payload]⟩
      = .error .unsupportedFormat := by
  constructor
  · rw [TEX.read_header w h u1 fmt u2 m payload hw hh]
    have hfb : ((fmt == TEXFormat.DXT1) || (fmt == TEXFormat.DXT5)
        || (fmt == TEXFormat.BGRA8)) = false := by
      simp [hf1, hf2, hf3]
    rw [hfb]
    simp [hp]
  · have hsel : selectData ⟨w, h, fmt, m != 0, [payload]⟩ = some payload := by
      unfold selectData
      by_cases hb : (m != 0) = true <;> simp [hb]
    simp only [decompress_tex_to_rgba, hsel]
    rw [if_neg hf3, if_neg hf1, if_neg hf2]

/-- Witness for C7: format code 0 with payload `[5]`. -/
theorem c7_witness :
    TEX.read (u32LE 0x00584554 ++ u16LE 1 ++ u16LE 1 ++ [1, 0, 0, 0] ++ [5])
      = .ok ⟨1, 1, 0, (0 != 0), [[5]]⟩
    ∧ decompress_tex_to_rgba ⟨1, 1, 0, (0 != 0), [[5]]⟩
      = .error .unsupportedFormat :=
  c7_unknown_format_parses_decode_fails 1 1 1 0 0 0 [5] (by decide) (by decide)
    (by decide) (by decide) (by decide) (by decide)

/-! ## Claim C9 -/

/-- The value the gathering loop of `compress_dxt5_block` contributes for
in-block position `(py, px)` when the pixel buffer covers the image. -/
def gatherEntry (pixels : List Nat) (x y width height py px : Nat) :
    (Nat × Nat × Nat) × Nat :=
  if x + px < width ∧ y + py < height then
    ((pixels.getD (((y + py) * width + (x + px)) * 4) 0,
      pixels.getD (((y + py) * width + (x + px)) * 4 + 1) 0,
      pixels.getD (((y + py) * width + (x + px)) * 4 + 2) 0),
     pixels.getD (((y + py) * width + (x + px)) * 4 + 3) 0)
  else ((0, 0, 0), 0)

theorem gatherStep_eq (pixels : List Nat) (x y width height : Nat)
    (hlen : pixels.length = width * height * 4) (py px : Nat) :
    gatherStep pixels x y width height py px =
      [gatherEntry pixels x y width height py px] := by
  by_cases hin : x + px < width ∧ y + py < height
  · have hrc := rowcol_lt hin.2 hin.1
    have hc : height * width = width * height := Nat.mul_comm height width
    have hidx : ((y + py) * width + (x + px)) * 4 + 3 < pixels.length := by omega
    simp only [gatherStep, gatherEntry, if_pos hin, if_pos hidx]
  · simp only [gatherStep, gatherEntry, if_neg hin]

theorem gatherBlock_getD (pixels : List Nat) (x y width height : Nat)
    (hlen : pixels.length = width * height * 4) (py px : Nat)
    (hpy : py < 4) (hpx : px < 4) :
    (gatherBlock pixels x y width height).getD (py * 4 + px) ((0, 0, 0), 0) =
      gatherEntry pixels x y width height py px := by
  have hstep := gatherStep_eq pixels x y width height hlen
  unfold gatherBlock
  have hr : List.range 4 = [0, 1, 2, 3] := rfl
  rw [hr]
  simp only [List.foldl_cons, List.foldl_nil, hstep]
  interval_cases py <;> interval_cases px <;> simp

/-- C9: a block decode at origin `(x, y)` leaves every destination byte
outside the written in-bounds positions unchanged (for both DXT1 and DXT5),
and the block-encode gathering loop treats every source position outside
`width`×`height` as the pixel `(0, 0, 0)` with alpha `0`. -/
theorem c9_boundary_handling (blockData : List Nat) (x y width height : Nat)
    (pixels : List Nat) (j d px py : Nat)
    (hlen : pixels.length = width * height * 4)
    (hj : ∀ px' py', px' < 4 → py' < 4 → x + px' < width → y + py' < height →
      j < ((y + py') * width + (x + px')) * 4 ∨
        ((y + py') * width + (x + px')) * 4 + 4 ≤ j)
    (hpx : px < 4) (hpy : py < 4)
    (hout : width ≤ x + px ∨ height ≤ y + py) :
    (decompress_dxt1_block blockData x y width height pixels).getD j d
        = pixels.getD j d
    ∧ (decompress_dxt5_block blockData x y width height pixels).getD j d
        = pixels.getD j d
    ∧ (gatherBlock pixels x y width height).getD (py * 4 + px) ((0, 0, 0), 0)
        = ((0, 0, 0), 0) := by
  refine ⟨?_, ?_, ?_⟩
  · unfold decompress_dxt1_block
    by_cases hb : blockData.length < 8
    · rw [if_pos hb]
    · rw [if_neg hb]
      exact decodeBlockLoop_getD_outside _ x y width height pixels j d hlen hj
  · unfold decompress_dxt5_block
    by_cases hb : blockData.length < 16
    · rw [if_pos hb]
    · rw [if_neg hb]
      exact decodeBlockLoop_getD_outside _ x y width height pixels j d hlen hj
  · rw [gatherBlock_getD pixels x y width height hlen py px hpy hpx]
    unfold gatherEntry
    rw [if_neg (by omega)]

/-- Witness for C9 at a 2×2 image: block position `(2, 0)` is out of bounds,
byte index 100 lies beyond every written range. -/
theorem c9_witness :
    (List.replicate 16 5 : List Nat).length = 2 * 2 * 4 ∧
      ((decompress_dxt1_block [0, 0, 0, 0, 0, 0, 0, 0] 0 0 2 2
          (List.replicate 16 5)).getD 100 0 = (List.replicate 16 5).getD 100 0
       ∧ (decompress_dxt5_block [0, 0, 0, 0, 0, 0, 0, 0] 0 0 2 2
          (List.replicate 16 5)).getD 100 0 = (List.replicate 16 5).getD 100 0
       ∧ (gatherBlock (List.replicate 16 5) 0 0 2 2).getD (0 * 4 + 2) ((0, 0, 0), 0)
          = ((0, 0, 0), 0)) :=
  ⟨by decide,
   c9_boundary_handling [0, 0, 0, 0, 0, 0, 0, 0] 0 0 2 2 (List.replicate 16 5)
     100 0 2 0 (by decide)
     (by intro px' py' h1 h2 h3 h4; omega)
     (by decide) (by decide) (by decide)⟩

/-! ## Claim C10 -/

theorem setB_length (l : List Nat) (i v : Nat) (l2 : List Nat)
    (h : setB l i v = some l2) : l2.length = l.length := by
  unfold setB at h
  split at h
  · cases h
    exact List.length_set l i v
  · cases h

theorem bgraDecodeGo_length (data : List Nat) : ∀ (fuel i : Nat)
    (pixels out : List Nat), bgraDecodeGo data i fuel pixels = some out →
    out.length = pixels.length := by
  intro fuel
  induction fuel with
  | zero =>
    intro i pixels out h
    simp only [bgraDecodeGo] at h
    cases h
    rfl
  | succ fuel ih =>
    intro i pixels out h
    simp only [bgraDecodeGo] at h
    by_cases hg : i + 3 < data.length
    · rw [if_pos hg] at h
      cases h1 : setB pixels i (data.getD (i + 2) 0) with
      | none => simp only [h1] at h; exact Option.noConfusion h
      | some p1 =>
        simp only [h1] at h
        cases h2 : setB p1 (i + 1) (data.getD (i + 1) 0) with
        | none => simp only [h2] at h; exact Option.noConfusion h
        | some p2 =>
          simp only [h2] at h
          cases h3 : setB p2 (i + 2) (data.getD i 0) with
          | none => simp only [h3] at h; exact Option.noConfusion h
          | some p3 =>
            simp only [h3] at h
            cases h4 : setB p3 (i + 3) (data.getD (i + 3) 0) with
            | none => simp only [h4] at h; exact Option.noConfusion h
            | some p4 =>
              simp only [h4] at h
              rw [ih _ _ _ h, setB_length _ _ _ _ h4, setB_length _ _ _ _ h3,
                setB_length _ _ _ _ h2, setB_length _ _ _ _ h1]
    · rw [if_neg hg] at h
      exact ih _ _ _ h

theorem decompress_dxt1_block_length (blockData : List Nat) (x y width height : Nat)
    (pixels : List Nat) (h : pixels.length = width * height * 4) :
    (decompress_dxt1_block blockData x y width height pixels).length = pixels.length := by
  unfold decompress_dxt1_block
  split
  · rfl
  · exact decodeBlockLoop_length _ x y width height pixels h

theorem decompress_dxt5_block_length (blockData : List Nat) (x y width height : Nat)
    (pixels : List Nat) (h : pixels.length = width * height * 4) :
    (decompress_dxt5_block blockData x y width height pixels).length = pixels.length := by
  unfold decompress_dxt5_block
  split
  · rfl
  · exact decodeBlockLoop_length _ x y width height pixels h

theorem dxt1DecodeImage_length (data : List Nat) (width height : Nat)
    (pixels : List Nat) (h : pixels.length = width * height * 4) :
    (dxt1DecodeImage data width height pixels).length = pixels.length := by
  rw [h]
  unfold dxt1DecodeImage
  refine foldl_inv (fun (pix : List Nat) => pix.length = width * height * 4) _ _ _ h ?_
  intro pix yb _ hpix
  refine foldl_inv (fun (pix : List Nat) => pix.length = width * height * 4) _ _ _ hpix ?_
  intro pix2 xb _ hpix2
  split
  · rw [decompress_dxt1_block_length _ _ _ _ _ _ hpix2]
    exact hpix2
  · exact hpix2

theorem dxt5DecodeImage_length (data : List Nat) (width height : Nat)
    (pixels : List Nat) (h : pixels.length = width * height * 4) :
    (dxt5DecodeImage data width height pixels).length = pixels.length := by
  rw [h]
  unfold dxt5DecodeImage
  refine foldl_inv (fun (pix : List Nat) => pix.length = width * height * 4) _ _ _ h ?_
  intro pix yb _ hpix
  refine foldl_inv (fun (pix : List Nat) => pix.length = width * height * 4) _ _ _ hpix ?_
  intro pix2 xb _ hpix2
  split
  · rw [decompress_dxt5_block_length _ _ _ _ _ _ hpix2]
    exact hpix2
  · exact hpix2

/-- C10: whenever `decompress_tex_to_rgba` returns normally, the pixel
buffer it produces has exactly `width * height * 4` bytes, whatever the
length of the selected level buffer: positions no block write touches keep
their zero initialization instead of shrinking the output. -/
theorem c10_decode_output_size (tex : TEX) (out : List Nat)
    (h : decompress_tex_to_rgba tex = .ok out) :
    out.length = tex.width * tex.height * 4 := by
  simp only [decompress_tex_to_rgba] at h
  cases hsel : selectData tex with
  | none => simp only [hsel] at h; exact Except.noConfusion h
  | some data =>
    simp only [hsel] at h
    by_cases h20 : tex.format = TEXFormat.BGRA8
    · rw [if_pos h20] at h
      cases hb : bgraDecodeLoop data
          (List.replicate (tex.width * tex.height * 4) 0) with
      | none => simp only [hb] at h; exact Except.noConfusion h
      | some o =>
        simp only [hb] at h
        cases h
        have hlen := bgraDecodeGo_length data _ _ _ _ hb
        simpa using hlen
    · rw [if_neg h20] at h
      by_cases h10 : tex.format = TEXFormat.DXT1
      · rw [if_pos h10] at h
        cases h
        rw [dxt1DecodeImage_length data _ _ _ (by simp)]
        simp
      · rw [if_neg h10] at h
        by_cases h12 : tex.format = TEXFormat.DXT5
        · rw [if_pos h12] at h
          cases h
          rw [dxt5DecodeImage_length data _ _ _ (by simp)]
          simp
        · rw [if_neg h12] at h
          cases h

/-- Witness for C10: a 1×1 BGRA8 image decodes to 4 bytes. -/
theorem c10_witness :
    decompress_tex_to_rgba ⟨1, 1, TEXFormat.BGRA8, false, [[1, 2, 3, 4]]⟩
      = .ok [3, 2, 1, 4] ∧
    ([3, 2, 1, 4] : List Nat).length =
      (⟨1, 1, TEXFormat.BGRA8, false, [[1, 2, 3, 4]]⟩ : TEX).width *
        (⟨1, 1, TEXFormat.BGRA8, false, [[1, 2, 3, 4]]⟩ : TEX).height * 4 :=
  ⟨by decide,
   c10_decode_output_size ⟨1, 1, TEXFormat.BGRA8, false, [[1, 2, 3, 4]]⟩
     [3, 2, 1, 4] (by decide)⟩

/-! ## Claim C8: helper lemmas -/

theorem getD_set_self (l : List Nat) (n v d : Nat) (h : n < l.length) :
    (l.set n v).getD n d = v := by
  rw [List.getD_eq_get?, List.get?_set, if_pos rfl, List.get?_eq_get h]
  rfl

theorem getD_set_other (l : List Nat) (n m v d : Nat) (h : n ≠ m) :
    (l.set n v).getD m d = l.getD m d := by
  rw [List.getD_eq_get?, List.get?_set, if_neg h, List.getD_eq_get?]

theorem setB_some (l : List Nat) (i v : Nat) (h : i < l.length) :
    setB l i v = some (l.set i v) := by
  unfold setB
  rw [if_pos h]

theorem get?_eq_some_getD (l : List Nat) (n : Nat) (h : n < l.length) :
    l.get? n = some (l.getD n 0) := by
  rw [List.get?_eq_get h, List.getD_eq_get?, List.get?_eq_get h]
  rfl

theorem set4_getD (pixels : List Nat) (i v1 v2 v3 v4 j d : Nat)
    (h : i + 3 < pixels.length) :
    ((((pixels.set i v1).set (i + 1) v2).set (i + 2) v3).set (i + 3) v4).getD j d =
      (if j = i then v1 else if j = i + 1 then v2 else if j = i + 2 then v3
       else if j = i + 3 then v4 else pixels.getD j d) := by
  by_cases h0 : j = i
  · subst h0
    rw [getD_set_other _ _ _ _ _ (by omega), getD_set_other _ _ _ _ _ (by omega),
        getD_set_other _ _ _ _ _ (by omega), getD_set_self _ _ _ _ (by omega),
        if_pos rfl]
  · by_cases h1 : j = i + 1
    · subst h1
      rw [getD_set_other _ _ _ _ _ (by omega), getD_set_other _ _ _ _ _ (by omega),
          getD_set_self _ _ _ _ (by rw [List.length_set]; omega),
          if_neg h0, if_pos rfl]
    · by_cases h2 : j = i + 2
      · subst h2
        rw [getD_set_other _ _ _ _ _ (by omega),
            getD_set_self _ _ _ _ (by rw [List.length_set, List.length_set]; omega),
            if_neg h0, if_neg h1, if_pos rfl]
      · by_cases h3 : j = i + 3
        · subst h3
          rw [getD_set_self _ _ _ _
              (by rw [List.length_set, List.length_set, List.length_set]; omega),
            if_neg h0, if_neg h1, if_neg h2, if_pos rfl]
        · rw [getD_set_other _ _ _ _ _ (Ne.symm h3), getD_set_other _ _ _ _ _ (Ne.symm h2),
              getD_set_other _ _ _ _ _ (Ne.symm h1), getD_set_other _ _ _ _ _ (Ne.symm h0),
              if_neg h0, if_neg h1, if_neg h2, if_neg h3]

/-- The byte index each group-of-four swap reads from: `i ↔ i+2` within a
group, `i+1` and `i+3` fixed. -/
def swapIdx (j : Nat) : Nat :=
  if j % 4 = 0 then j + 2 else if j % 4 = 2 then j - 2 else j

theorem swapIdx_invol (j : Nat) : swapIdx (swapIdx j) = j := by
  unfold swapIdx
  by_cases h0 : j % 4 = 0
  · rw [if_pos h0, if_neg (by omega), if_pos (by omega)]
    omega
  · rw [if_neg h0]
    by_cases h2 : j % 4 = 2
    · rw [if_pos h2, if_pos (by omega)]
      omega
    · rw [if_neg h2, if_neg h0, if_neg h2]

theorem swapIdx_lt (j len : Nat) (hj : j < len) (h4 : len % 4 = 0) :
    swapIdx j < len := by
  unfold swapIdx
  by_cases h0 : j % 4 = 0
  · rw [if_pos h0]
    omega
  · rw [if_neg h0]
    by_cases h2 : j % 4 = 2
    · rw [if_pos h2]
      omega
    · rw [if_neg h2]
      exact hj

theorem set4_swap_getD (src dst : List Nat) (i j : Nat)
    (hi : i + 3 < dst.length) (hmod : i % 4 = 0) :
    ((((dst.set i (src.getD (i + 2) 0)).set (i + 1) (src.getD (i + 1) 0)).set
        (i + 2) (src.getD i 0)).set (i + 3) (src.getD (i + 3) 0)).getD j 0 =
      (if i ≤ j ∧ j < i + 4 then src.getD (swapIdx j) 0 else dst.getD j 0) := by
  rw [set4_getD dst i _ _ _ _ j 0 hi]
  by_cases hji : i ≤ j ∧ j < i + 4
  · rw [if_pos hji]
    rcases (by omega : j = i ∨ j = i + 1 ∨ j = i + 2 ∨ j = i + 3) with hc | hc | hc | hc
      <;> subst hc
    · rw [if_pos rfl]
      unfold swapIdx
      rw [if_pos hmod]
    · rw [if_neg (by omega), if_pos rfl]
      unfold swapIdx
      rw [if_neg (by omega), if_neg (by omega)]
    · rw [if_neg (by omega), if_neg (by omega), if_pos rfl]
      unfold swapIdx
      rw [if_neg (by omega), if_pos (by omega)]
      have he : i + 2 - 2 = i := by omega
      rw [he]
    · rw [if_neg (by omega), if_neg (by omega), if_neg (by omega), if_pos rfl]
      unfold swapIdx
      rw [if_neg (by omega), if_neg (by omega)]
  · rw [if_neg hji, if_neg (by omega), if_neg (by omega), if_neg (by omega),
        if_neg (by omega)]

theorem list_ext_getD (l1 l2 : List Nat) (hlen : l1.length = l2.length)
    (h : ∀ j, j < l1.length → l1.getD j 0 = l2.getD j 0) : l1 = l2 := by
  refine List.ext_get hlen ?_
  intro n h1 h2
  have hj := h n h1
  rw [List.getD_eq_get?, List.getD_eq_get?, List.get?_eq_get h1,
    List.get?_eq_get h2] at hj
  exact hj

theorem bgraDecodeGo_spec (data : List Nat) : ∀ (fuel i : Nat) (pixels : List Nat),
    data.length = pixels.length → i + 4 * fuel = data.length → i % 4 = 0 →
    ∃ out, bgraDecodeGo data i fuel pixels = some out ∧
      out.length = pixels.length ∧
      ∀ j, out.getD j 0 =
        (if i ≤ j ∧ j < data.length then data.getD (swapIdx j) 0
         else pixels.getD j 0) := by
  intro fuel
  induction fuel with
  | zero =>
    intro i pixels hlen hfuel hmod
    refine ⟨pixels, rfl, rfl, ?_⟩
    intro j
    rw [if_neg (by omega)]
  | succ fuel ih =>
    intro i pixels hlen hfuel hmod
    have hg : i + 3 < data.length := by omega
    have hs1 := setB_some pixels i (data.getD (i + 2) 0) (by omega)
    have hs2 := setB_some (pixels.set i (data.getD (i + 2) 0)) (i + 1)
      (data.getD (i + 1) 0) (by rw [List.length_set]; omega)
    have hs3 := setB_some ((pixels.set i (data.getD (i + 2) 0)).set (i + 1)
      (data.getD (i + 1) 0)) (i + 2) (data.getD i 0)
      (by rw [List.length_set, List.length_set]; omega)
    have hs4 := setB_some (((pixels.set i (data.getD (i + 2) 0)).set (i + 1)
      (data.getD (i + 1) 0)).set (i + 2) (data.getD i 0)) (i + 3)
      (data.getD (i + 3) 0)
      (by rw [List.length_set, List.length_set, List.length_set]; omega)
    have hstep : bgraDecodeGo data i (fuel + 1) pixels =
        bgraDecodeGo data (i + 4) fuel
          ((((pixels.set i (data.getD (i + 2) 0)).set (i + 1)
            (data.getD (i + 1) 0)).set (i + 2) (data.getD i 0)).set (i + 3)
            (data.getD (i + 3) 0)) := by
      simp only [bgraDecodeGo, if_pos hg, hs1, hs2, hs3, hs4]
    obtain ⟨out, ho1, ho2, ho3⟩ := ih (i + 4)
      ((((pixels.set i (data.getD (i + 2) 0)).set (i + 1)
        (data.getD (i + 1) 0)).set (i + 2) (data.getD i 0)).set (i + 3)
        (data.getD (i + 3) 0))
      (by simp only [List.length_set]; exact hlen) (by omega) (by omega)
    refine ⟨out, by rw [hstep]; exact ho1, by rw [ho2]; simp, ?_⟩
    intro j
    rw [ho3 j, set4_swap_getD data pixels i j (by omega) hmod]
    by_cases hj4 : i + 4 ≤ j ∧ j < data.length
    · rw [if_pos hj4, if_pos ⟨by omega, hj4.2⟩]
    · rw [if_neg hj4]
      by_cases hji : i ≤ j ∧ j < i + 4
      · rw [if_pos hji, if_pos ⟨hji.1, by omega⟩]
      · rw [if_neg hji, if_neg (by omega)]

theorem rgbaToBgraGo_spec (pd : List Nat) : ∀ (fuel i : Nat) (bgra : List Nat),
    pd.length = bgra.length → i + 4 * fuel = pd.length → i % 4 = 0 →
    ∃ out, rgbaToBgraGo pd i fuel bgra = some out ∧
      out.length = bgra.length ∧
      ∀ j, out.getD j 0 =
        (if i ≤ j ∧ j < pd.length then pd.getD (swapIdx j) 0
         else bgra.getD j 0) := by
  intro fuel
  induction fuel with
  | zero =>
    intro i bgra hlen hfuel hmod
    refine ⟨bgra, rfl, rfl, ?_⟩
    intro j
    rw [if_neg (by omega)]
  | succ fuel ih =>
    intro i bgra hlen hfuel hmod
    have hg : i + 3 < pd.length := by omega
    have hr1 := get?_eq_some_getD pd (i + 2) (by omega)
    have hr2 := get?_eq_some_getD pd (i + 1) (by omega)
    have hr3 := get?_eq_some_getD pd i (by omega)
    have hr4 := get?_eq_some_getD pd (i + 3) (by omega)
    have hs1 := setB_some bgra i (pd.getD (i + 2) 0) (by omega)
    have hs2 := setB_some (bgra.set i (pd.getD (i + 2) 0)) (i + 1)
      (pd.getD (i + 1) 0) (by rw [List.length_set]; omega)
    have hs3 := setB_some ((bgra.set i (pd.getD (i + 2) 0)).set (i + 1)
      (pd.getD (i + 1) 0)) (i + 2) (pd.getD i 0)
      (by rw [List.length_set, List.length_set]; omega)
    have hs4 := setB_some (((bgra.set i (pd.getD (i + 2) 0)).set (i + 1)
      (pd.getD (i + 1) 0)).set (i + 2) (pd.getD i 0)) (i + 3)
      (pd.getD (i + 3) 0)
      (by rw [List.length_set, List.length_set, List.length_set]; omega)
    have hstep : rgbaToBgraGo pd i (fuel + 1) bgra =
        rgbaToBgraGo pd (i + 4) fuel
          ((((bgra.set i (pd.getD (i + 2) 0)).set (i + 1)
            (pd.getD (i + 1) 0)).set (i + 2) (pd.getD i 0)).set (i + 3)
            (pd.getD (i + 3) 0)) := by
      simp only [rgbaToBgraGo, hr1, hr2, hr3, hr4, hs1, hs2, hs3, hs4]
    obtain ⟨out, ho1, ho2, ho3⟩ := ih (i + 4)
      ((((bgra.set i (pd.getD (i + 2) 0)).set (i + 1)
        (pd.getD (i + 1) 0)).set (i + 2) (pd.getD i 0)).set (i + 3)
        (pd.getD (i + 3) 0))
      (by simp only [List.length_set]; exact hlen) (by omega) (by omega)
    refine ⟨out, by rw [hstep]; exact ho1, by rw [ho2]; simp, ?_⟩
    intro j
    rw [ho3 j, set4_swap_getD pd bgra i j (by omega) hmod]
    by_cases hj4 : i + 4 ≤ j ∧ j < pd.length
    · rw [if_pos hj4, if_pos ⟨by omega, hj4.2⟩]
    · rw [if_neg hj4]
      by_cases hji : i ≤ j ∧ j < i + 4
      · rw [if_pos hji, if_pos ⟨hji.1, by omega⟩]
      · rw [if_neg hji, if_neg (by omega)]

theorem bgraDecodeLoop_spec (data pixels : List Nat)
    (hlen : data.length = pixels.length) (h4 : data.length % 4 = 0) :
    ∃ out, bgraDecodeLoop data pixels = some out ∧ out.length = pixels.length ∧
      ∀ j, out.getD j 0 =
        (if j < data.length then data.getD (swapIdx j) 0 else pixels.getD j 0) := by
  obtain ⟨out, h1, h2, h3⟩ := bgraDecodeGo_spec data ((data.length + 3) / 4) 0
    pixels hlen (by omega) (by omega)
  refine ⟨out, h1, h2, ?_⟩
  intro j
  rw [h3 j]
  by_cases hj : j < data.length
  · rw [if_pos ⟨by omega, hj⟩, if_pos hj]
  · rw [if_neg (by omega), if_neg hj]

theorem rgbaToBgra_spec (pd : List Nat) (h4 : pd.length % 4 = 0) :
    ∃ bgra, rgbaToBgra pd = some bgra ∧ bgra.length = pd.length ∧
      ∀ j, bgra.getD j 0 =
        (if j < pd.length then pd.getD (swapIdx j) 0 else 0) := by
  obtain ⟨out, h1, h2, h3⟩ := rgbaToBgraGo_spec pd ((pd.length + 3) / 4) 0
    (List.replicate pd.length 0) (by simp) (by omega) (by omega)
  refine ⟨out, h1, by rw [h2]; simp, ?_⟩
  intro j
  rw [h3 j]
  by_cases hj : j < pd.length
  · rw [if_pos ⟨by omega, hj⟩, if_pos hj]
  · rw [if_neg (by omega), if_neg hj]
    rcases hg : (List.replicate pd.length (0 : Nat)).get? j with _ | v
    · rw [List.getD_eq_get?, hg]
      rfl
    · have hmem := List.get?_mem hg
      have hv : v = 0 := List.eq_of_mem_replicate hmem
      rw [List.getD_eq_get?, hg, hv]
      rfl

/-- C8: converting an RGBA8 pixel buffer to BGRA8, writing it as a
no-mipmaps BGRA8 container, reading the container back and decoding it to
RGBA8 returns the original pixel buffer byte for byte. -/
theorem c8_bgra8_roundtrip (w h : Nat) (pixels : List Nat)
    (hw1 : 1 ≤ w) (hh1 : 1 ≤ h) (hw2 : w < 65536) (hh2 : h < 65536)
    (hlen : pixels.length = w * h * 4) :
    ∃ bgra tex2, rgbaToBgra pixels = some bgra
      ∧ TEX.read (TEX.write ⟨w, h, TEXFormat.BGRA8, false, [bgra]⟩) = .ok tex2
      ∧ decompress_tex_to_rgba tex2 = .ok pixels := by
  have hwh : 0 < w * h := Nat.mul_pos hw1 hh1
  obtain ⟨n, hn⟩ : ∃ n, w * h = n := ⟨w * h, rfl⟩
  rw [hn] at hlen hwh
  have hmod4 : pixels.length % 4 = 0 := by omega
  obtain ⟨bgra, hb1, hb2, hb3⟩ := rgbaToBgra_spec pixels hmod4
  have hbne : bgra ≠ [] := by
    intro hc
    rw [hc] at hb2
    simp at hb2
    omega
  refine ⟨bgra, ⟨w, h, TEXFormat.BGRA8, false, [bgra]⟩, hb1, ?_, ?_⟩
  · have hwrite : TEX.write ⟨w, h, TEXFormat.BGRA8, false, [bgra]⟩ =
        u32LE 0x00584554 ++ u16LE w ++ u16LE h ++ [1, TEXFormat.BGRA8, 0, 0] ++ bgra := by
      simp [TEX.write, TEXFormat.BGRA8]
    rw [hwrite, TEX.read_header w h 1 TEXFormat.BGRA8 0 0 bgra hw2 hh2]
    simp [hbne]
  · have hsel : selectData ⟨w, h, TEXFormat.BGRA8, false, [bgra]⟩ = some bgra := by
      unfold selectData
      simp
    simp only [decompress_tex_to_rgba, hsel]
    simp only [if_true]
    obtain ⟨out, ho1, ho2, ho3⟩ := bgraDecodeLoop_spec bgra
      (List.replicate (w * h * 4) 0) (by simp [hb2, hlen, hn]) (by omega)
    simp only [ho1]
    have hout : out = pixels := by
      refine list_ext_getD out pixels (by rw [ho2]; simp [hlen, hn]) ?_
      intro j hj
      have hjb : j < bgra.length := by
        rw [ho2] at hj
        simp [hn] at hj
        omega
      have hjp : j < pixels.length := by omega
      have hsw : swapIdx j < pixels.length := swapIdx_lt j pixels.length hjp hmod4
      rw [ho3 j, if_pos hjb, hb3 (swapIdx j), if_pos hsw, swapIdx_invol j]
    rw [hout]

/-- Witness for C8 on a 1×1 image with pixel bytes `[1, 2, 3, 4]`. -/
theorem c8_witness :
    ([1, 2, 3, 4] : List Nat).length = 1 * 1 * 4 ∧
      ∃ bgra tex2, rgbaToBgra [1, 2, 3, 4] = some bgra
        ∧ TEX.read (TEX.write ⟨1, 1, TEXFormat.BGRA8, false, [bgra]⟩) = .ok tex2
        ∧ decompress_tex_to_rgba tex2 = .ok [1, 2, 3, 4] :=
  ⟨by decide,
   c8_bgra8_roundtrip 1 1 [1, 2, 3, 4] (by decide) (by decide) (by decide)
     (by decide) (by decide)⟩
